import Mathlib

/-
  Shallow embedding of the Tasks CRUD backend in src/main.py
  (FastAPI + SQLModel over SQLite).

  Modelling conventions:
  - A character is a Unicode code point, modelled as a Nat; a string is a
    List Nat.  The code points actually exercised here are ASCII.
  - Timestamps (datetime.utcnow values) are Nats; each call of
    datetime.utcnow is modelled as an explicit timestamp parameter, so
    clock monotonicity becomes a hypothesis relating those parameters.
  - The SQLite table of tasks is a List Task; the primary-key lookup
    session.get(Task, id) is List.find? on the id; the UPDATE issued at
    commit rewrites the row(s) with that id; DELETE removes them.
  - q-filtering uses SQL LIKE semantics: the code builds the pattern
    "%" + q.lower() + "%" without escaping, so "%" (code 37) and "_"
    (code 95) inside q act as wildcards.  likeMatchF implements LIKE
    matching with explicit fuel (the fuel patternLen + stringLen + 1 is
    always sufficient: every recursive step consumes one unit of fuel and
    shortens pattern + string by at least one).
  - lower() is ASCII case folding (SQLite's lower(); the tested inputs
    are ASCII, where Python str.lower agrees).
-/

namespace TasksApi

/-- Code point of the percent sign, the LIKE multi-character wildcard. -/
def percentCode : Nat := 37

/-- Code point of the underscore, the LIKE single-character wildcard. -/
def underscoreCode : Nat := 95

/-- ASCII case folding of one code point, as applied by lower(). -/
def lowerChar (c : Nat) : Nat :=
  if 65 ≤ c ∧ c ≤ 90 then c + 32 else c

/-- lower() applied to a whole string. -/
def strLower (s : List Nat) : List Nat := s.map lowerChar

/-- SQL LIKE matching with explicit fuel: percentCode matches any
(possibly empty) run of characters, underscoreCode matches exactly one
character, every other pattern character matches itself. -/
def likeMatchF : Nat → List Nat → List Nat → Bool
  | 0, _, _ => false
  | _ + 1, [], s => s.isEmpty
  | fuel + 1, c :: p, s =>
    if c = percentCode then
      likeMatchF fuel p s ||
        (match s with
         | [] => false
         | _ :: s2 => likeMatchF fuel (c :: p) s2)
    else
      match s with
      | [] => false
      | d :: s2 =>
        if c = underscoreCode then likeMatchF fuel p s2
        else decide (c = d) && likeMatchF fuel p s2

/-- SQL LIKE matching of a pattern against a string. -/
def likeMatch (p s : List Nat) : Bool :=
  likeMatchF (p.length + s.length + 1) p s

/-- Boolean test that n is a prefix of h. -/
def prefixMatch : List Nat → List Nat → Bool
  | [], _ => true
  | _ :: _, [] => false
  | a :: n2, b :: h2 => decide (a = b) && prefixMatch n2 h2

/-- Boolean test that n occurs as a contiguous substring of h:
the literal-substring reading of the spec's q filter. -/
def containsSub (n : List Nat) : List Nat → Bool
  | [] => prefixMatch n []
  | b :: h2 => prefixMatch n (b :: h2) || containsSub n h2

/-- StatusEnum from main.py: created | in_progress | completed. -/
inductive StatusEnum where
  | created
  | in_progress
  | completed
deriving DecidableEq

/-- Task row (class Task in main.py): id primary key, title, optional
description, status, created_at and updated_at timestamps. -/
structure Task where
  id : Nat
  title : List Nat
  description : Option (List Nat)
  status : StatusEnum
  created_at : Nat
  updated_at : Nat
deriving DecidableEq

/-- TaskCreate payload: title, optional description, optional status. -/
structure TaskCreate where
  title : List Nat
  description : Option (List Nat)
  status : Option StatusEnum
deriving DecidableEq

/-- TaskUpdate payload: every field optional; an absent field is none. -/
structure TaskUpdate where
  title : Option (List Nat)
  description : Option (List Nat)
  status : Option StatusEnum
deriving DecidableEq

/-- The only domain error of the service: 404 Task not found. -/
inductive ApiError where
  | notFound
deriving DecidableEq

/-- The WHERE clause Task.status == status_. -/
def statusClause (s : StatusEnum) (t : Task) : Bool :=
  decide (t.status = s)

/-- The LIKE pattern f-string percent + q.lower() + percent. -/
def likePattern (q : List Nat) : List Nat :=
  percentCode :: (strLower q ++ [percentCode])

/-- The WHERE clause lower(title) LIKE pattern OR lower(description)
LIKE pattern; in SQL a NULL description makes its disjunct NULL, so a
row with NULL description can only match through its title. -/
def qClause (q : List Nat) (t : Task) : Bool :=
  likeMatch (likePattern q) (strLower t.title) ||
    (match t.description with
     | none => false
     | some d => likeMatch (likePattern q) (strLower d))

/-- apply_filters from main.py: conjoin the status clause when status_
is given and the q clause when q is given and truthy (non-empty). -/
def applyFilters (status_ : Option StatusEnum) (q : Option (List Nat))
    (t : Task) : Bool :=
  (match status_ with
   | none => true
   | some s => statusClause s t) &&
  (match q with
   | none => true
   | some qs => if qs = [] then true else qClause qs t)

/-- The spec's reading of the q filter: a case-insensitive literal
substring of title or of description, a null description never matching.
Modelled from the spec for comparison with qClause. -/
def qSpecMatch (q : List Nat) (t : Task) : Bool :=
  containsSub (strLower q) (strLower t.title) ||
    (match t.description with
     | none => false
     | some d => containsSub (strLower q) (strLower d))

/-- ORDER BY created_at DESC as a relation: a precedes b when
b.created_at ≤ a.created_at. -/
def taskOrder (a b : Task) : Prop :=
  b.created_at ≤ a.created_at

instance : DecidableRel taskOrder :=
  fun a b => inferInstanceAs (Decidable (b.created_at ≤ a.created_at))

instance : IsTotal Task taskOrder :=
  ⟨fun a b => Nat.le_total b.created_at a.created_at⟩

instance : IsTrans Task taskOrder :=
  ⟨fun _ _ _ hab hbc => Nat.le_trans hbc hab⟩

/-- ORDER BY created_at DESC applied to a list of rows. -/
def sortByCreatedDesc (l : List Task) : List Task :=
  List.insertionSort taskOrder l

/-- session.get(Task, id): primary-key lookup. -/
def findTask (store : List Task) (id : Nat) : Option Task :=
  store.find? (fun t => t.id == id)

/-- GET /tasks/id (get_task): 404 when absent, else the row. -/
def getTask (store : List Task) (id : Nat) : Except ApiError Task :=
  match findTask store id with
  | none => Except.error ApiError.notFound
  | some t => Except.ok t

/-- POST /tasks (create_task): build the row with the payload fields,
status defaulting to created when the payload omits it, created_at from
the first utcnow sample t1 and updated_at from the second sample t2
(the two default_factory calls), insert, and return the row. -/
def createTask (store : List Task) (payload : TaskCreate)
    (newId t1 t2 : Nat) : Task × List Task :=
  let task : Task :=
    { id := newId
      title := payload.title
      description := payload.description
      status := payload.status.getD StatusEnum.created
      created_at := t1
      updated_at := t2 }
  (task, store ++ [task])

/-- GET /tasks (list_tasks): WHERE via apply_filters, ORDER BY
created_at DESC, then OFFSET and LIMIT. -/
def listTasks (store : List Task) (status_ : Option StatusEnum)
    (q : Option (List Nat)) (limit offset : Nat) : List Task :=
  (((sortByCreatedDesc
      (store.filter (applyFilters status_ q))).drop offset).take limit)

/-- The three sequential if-blocks of update_task: apply each provided
field that differs from the stored value, tracking the updated flag. -/
def applyUpdate (payload : TaskUpdate) (task : Task) : Task × Bool :=
  let r : Task × Bool := (task, false)
  let r : Task × Bool :=
    match payload.title with
    | some s => if s ≠ r.1.title then ({ r.1 with title := s }, true) else r
    | none => r
  let r : Task × Bool :=
    match payload.description with
    | some s =>
      if some s ≠ r.1.description then
        ({ r.1 with description := some s }, true)
      else r
    | none => r
  let r : Task × Bool :=
    match payload.status with
    | some s => if s ≠ r.1.status then ({ r.1 with status := s }, true) else r
    | none => r
  r

/-- Spec-side per-field change test: some provided field differs from
the stored value. -/
def anyChange (payload : TaskUpdate) (task : Task) : Bool :=
  (match payload.title with
   | some s => decide (s ≠ task.title)
   | none => false) ||
  (match payload.description with
   | some s => decide (some s ≠ task.description)
   | none => false) ||
  (match payload.status with
   | some s => decide (s ≠ task.status)
   | none => false)

/-- PATCH /tasks/id (update_task): 404 when absent; otherwise apply the
provided differing fields; when at least one changed, stamp updated_at
with the utcnow sample now and commit the row; otherwise return the row
as-is without touching the store. -/
def updateTask (store : List Task) (id : Nat) (payload : TaskUpdate)
    (now : Nat) : Except ApiError Task × List Task :=
  match findTask store id with
  | none => (Except.error ApiError.notFound, store)
  | some task =>
    let r := applyUpdate payload task
    if r.2 then
      let task2 := { r.1 with updated_at := now }
      (Except.ok task2,
       store.map (fun u => if u.id = id then task2 else u))
    else
      (Except.ok r.1, store)

/-- DELETE /tasks/id (delete_task): 404 when absent; otherwise remove
the row with that primary key and commit. -/
def deleteTask (store : List Task) (id : Nat) :
    Except ApiError Unit × List Task :=
  match findTask store id with
  | none => (Except.error ApiError.notFound, store)
  | some _ => (Except.ok (), store.filter (fun t => decide (t.id ≠ id)))

/-- Data-model invariant of section 3: updated_at is never earlier than
created_at. -/
def TaskWF (t : Task) : Prop :=
  t.created_at ≤ t.updated_at

/-- Field-level description of applyUpdate: id and both timestamps are
untouched, each data field ends at the provided value when present and
at the stored value otherwise, and the updated flag is anyChange. -/
theorem applyUpdate_spec (p : TaskUpdate) (t : Task) :
    (applyUpdate p t).1.id = t.id ∧
    (applyUpdate p t).1.created_at = t.created_at ∧
    (applyUpdate p t).1.updated_at = t.updated_at ∧
    (applyUpdate p t).1.title = p.title.getD t.title ∧
    (applyUpdate p t).1.description =
      (match p.description with
       | some s => some s
       | none => t.description) ∧
    (applyUpdate p t).1.status = p.status.getD t.status ∧
    (applyUpdate p t).2 = anyChange p t := by
  obtain ⟨pt, pd, ps⟩ := p
  cases pt <;> cases pd <;> cases ps <;>
    simp [applyUpdate, anyChange] <;> split_ifs <;> simp_all

/-- When no provided field differs, applyUpdate returns the stored row
unchanged with the updated flag false. -/
theorem applyUpdate_noop (p : TaskUpdate) (t : Task)
    (h : anyChange p t = false) : applyUpdate p t = (t, false) := by
  obtain ⟨pt, pd, ps⟩ := p
  cases pt <;> cases pd <;> cases ps <;> simp_all [applyUpdate, anyChange]

/-- Primary-key lookup misses exactly when no row carries the id. -/
theorem findTask_eq_none_iff (store : List Task) (id : Nat) :
    findTask store id = none ↔ ∀ t ∈ store, t.id ≠ id := by
  simp [findTask]

/-- A primary-key lookup hit is a row of the store with that id. -/
theorem findTask_some (store : List Task) (id : Nat) (t : Task)
    (h : findTask store id = some t) : t ∈ store ∧ t.id = id := by
  refine ⟨List.mem_of_find?_eq_some h, ?_⟩
  simpa using List.find?_some h

/-- C3: an update on an existing task with at least one provided,
differing field overwrites exactly the provided fields, stamps
updated_at with the current time (which is at least the previous
updated_at under a monotonic clock), keeps id and created_at, and
persists the row into the store. -/
theorem c3_update_changed (store : List Task) (id : Nat) (p : TaskUpdate)
    (now : Nat) (task : Task)
    (hfound : findTask store id = some task)
    (hchanged : anyChange p task = true)
    (hmono : task.updated_at ≤ now) :
    ∃ task2,
      (updateTask store id p now).1 = Except.ok task2 ∧
      task2.title = p.title.getD task.title ∧
      task2.description =
        (match p.description with
         | some s => some s
         | none => task.description) ∧
      task2.status = p.status.getD task.status ∧
      task2.id = task.id ∧
      task2.created_at = task.created_at ∧
      task2.updated_at = now ∧
      task.updated_at ≤ task2.updated_at ∧
      (updateTask store id p now).2 =
        store.map (fun u => if u.id = id then task2 else u) := by
  obtain ⟨h1, h2, h3, h4, h5, h6, h7⟩ := applyUpdate_spec p task
  have hflag : (applyUpdate p task).2 = true := h7.trans hchanged
  have key : updateTask store id p now =
      (Except.ok { (applyUpdate p task).1 with updated_at := now },
       store.map (fun u =>
         if u.id = id then { (applyUpdate p task).1 with updated_at := now }
         else u)) := by
    unfold updateTask
    rw [hfound]
    simp only [hflag, if_true]
  exact ⟨{ (applyUpdate p task).1 with updated_at := now },
    by rw [key], h4, h5, h6, h1, h2, rfl, hmono, by rw [key]⟩

/-- C3 witness at a concrete input: one stored task, a payload changing
only the title, current time 7. -/
theorem c3_update_changed_witness :
    ∃ task2,
      (updateTask [⟨0, [97], none, StatusEnum.created, 0, 0⟩] 0
        ⟨some [98], none, none⟩ 7).1 = Except.ok task2 ∧
      task2.title = [98] ∧
      task2.description = none ∧
      task2.status = StatusEnum.created ∧
      task2.id = 0 ∧
      task2.created_at = 0 ∧
      task2.updated_at = 7 ∧
      (0 : Nat) ≤ task2.updated_at ∧
      (updateTask [⟨0, [97], none, StatusEnum.created, 0, 0⟩] 0
        ⟨some [98], none, none⟩ 7).2 =
        List.map (fun u => if u.id = 0 then task2 else u)
          [⟨0, [97], none, StatusEnum.created, 0, 0⟩] :=
  c3_update_changed [⟨0, [97], none, StatusEnum.created, 0, 0⟩] 0
    ⟨some [98], none, none⟩ 7 ⟨0, [97], none, StatusEnum.created, 0, 0⟩
    rfl (by decide) (by decide)

/-- C4: an update on an existing task where no provided field differs
from the stored value returns the stored row as-is and leaves the store
untouched, in particular updated_at keeps its previous value. -/
theorem c4_update_noop (store : List Task) (id : Nat) (p : TaskUpdate)
    (now : Nat) (task : Task)
    (hfound : findTask store id = some task)
    (hnochange : anyChange p task = false) :
    updateTask store id p now = (Except.ok task, store) := by
  have hnoop := applyUpdate_noop p task hnochange
  unfold updateTask
  rw [hfound]
  simp [hnoop]

/-- C4 witness at a concrete input: a payload re-supplying the stored
title and status and omitting the description leaves everything alone. -/
theorem c4_update_noop_witness :
    updateTask [⟨0, [97], none, StatusEnum.created, 3, 5⟩] 0
      ⟨some [97], none, some StatusEnum.created⟩ 9 =
      (Except.ok ⟨0, [97], none, StatusEnum.created, 3, 5⟩,
       [⟨0, [97], none, StatusEnum.created, 3, 5⟩]) :=
  c4_update_noop [⟨0, [97], none, StatusEnum.created, 3, 5⟩] 0
    ⟨some [97], none, some StatusEnum.created⟩ 9
    ⟨0, [97], none, StatusEnum.created, 3, 5⟩ rfl (by decide)

/-- C1 counterexample: with the clock advancing by one tick between the
two default_factory samples (created_at from the first, updated_at from
the second), the freshly created task is returned intact by get but has
created_at different from updated_at, refuting the claimed equality. -/
theorem c1_counterexample :
    getTask (createTask [] ⟨[97], none, none⟩ 0 0 1).2 0 =
      Except.ok (createTask [] ⟨[97], none, none⟩ 0 0 1).1 ∧
    (createTask [] ⟨[97], none, none⟩ 0 0 1).1.created_at ≠
      (createTask [] ⟨[97], none, none⟩ 0 0 1).1.updated_at :=
  ⟨rfl, by decide⟩

/-- C1 amended: get immediately after create returns the created row
with title, description and status identical to the created values, and
created_at ≤ updated_at (the two timestamps are separate utcnow samples
taken in that order, so only ≤ is guaranteed by clock monotonicity). -/
theorem c1_create_get (store : List Task) (p : TaskCreate)
    (newId t1 t2 : Nat)
    (hmono : t1 ≤ t2)
    (hfresh : ∀ t ∈ store, t.id ≠ newId) :
    getTask (createTask store p newId t1 t2).2 newId =
      Except.ok (createTask store p newId t1 t2).1 ∧
    (createTask store p newId t1 t2).1.title = p.title ∧
    (createTask store p newId t1 t2).1.description = p.description ∧
    (createTask store p newId t1 t2).1.status =
      p.status.getD StatusEnum.created ∧
    (createTask store p newId t1 t2).1.created_at ≤
      (createTask store p newId t1 t2).1.updated_at := by
  have hnone : store.find? (fun t => t.id == newId) = none := by
    rw [List.find?_eq_none]
    intro x hx
    simpa using hfresh x hx
  refine ⟨?_, rfl, rfl, rfl, hmono⟩
  simp [getTask, findTask, createTask, hnone]

/-- C1 witness at a concrete input: empty store, both clock samples 4. -/
theorem c1_create_get_witness :
    getTask (createTask [] ⟨[97], some [100], none⟩ 2 4 4).2 2 =
      Except.ok (createTask [] ⟨[97], some [100], none⟩ 2 4 4).1 ∧
    (createTask [] ⟨[97], some [100], none⟩ 2 4 4).1.title = [97] ∧
    (createTask [] ⟨[97], some [100], none⟩ 2 4 4).1.description =
      some [100] ∧
    (createTask [] ⟨[97], some [100], none⟩ 2 4 4).1.status =
      StatusEnum.created ∧
    (createTask [] ⟨[97], some [100], none⟩ 2 4 4).1.created_at ≤
      (createTask [] ⟨[97], some [100], none⟩ 2 4 4).1.updated_at :=
  c1_create_get [] ⟨[97], some [100], none⟩ 2 4 4 (by decide)
    (by intro t ht; cases ht)

/-- C2: the q filter is built as an unescaped LIKE pattern, so the
wildcard characters of q are not matched literally: with one stored
task titled ab (code points 97, 98, description null), the query string
consisting of the single underscore (code 95) passes apply_filters and
is returned by list, although it is not a substring of the title, which
contradicts the documented literal-substring semantics. -/
theorem c2_like_wildcard_divergence :
    applyFilters none (some [95])
      ⟨0, [97, 98], none, StatusEnum.created, 0, 0⟩ = true ∧
    qSpecMatch [95] ⟨0, [97, 98], none, StatusEnum.created, 0, 0⟩ = false ∧
    listTasks [⟨0, [97, 98], none, StatusEnum.created, 0, 0⟩] none
      (some [95]) 20 0 =
      [⟨0, [97, 98], none, StatusEnum.created, 0, 0⟩] :=
  ⟨by decide, by decide, by decide⟩

/-- C5: list applies limit and offset after filtering and ordering: the
page equals the filtered set, reordered into a permutation sorted by
created_at descending, with the first offset rows dropped and then at
most limit rows taken; the page itself is sorted descending, has length
at most limit, and an offset at or past the end of the filtered set
yields the empty list. -/
theorem c5_pagination (store : List Task) (status_ : Option StatusEnum)
    (q : Option (List Nat)) (limit offset : Nat)
    (hl1 : 1 ≤ limit) (hl2 : limit ≤ 100) :
    listTasks store status_ q limit offset =
      ((sortByCreatedDesc
        (store.filter (applyFilters status_ q))).drop offset).take limit ∧
    (sortByCreatedDesc (store.filter (applyFilters status_ q))).Perm
      (store.filter (applyFilters status_ q)) ∧
    List.Pairwise taskOrder
      (sortByCreatedDesc (store.filter (applyFilters status_ q))) ∧
    List.Pairwise taskOrder (listTasks store status_ q limit offset) ∧
    (listTasks store status_ q limit offset).length ≤ limit ∧
    ((store.filter (applyFilters status_ q)).length ≤ offset →
      listTasks store status_ q limit offset = []) := by
  have hperm :=
    List.perm_insertionSort taskOrder (store.filter (applyFilters status_ q))
  have hsort :=
    List.sorted_insertionSort taskOrder (store.filter (applyFilters status_ q))
  have hsub : List.Sublist (listTasks store status_ q limit offset)
      (sortByCreatedDesc (store.filter (applyFilters status_ q))) :=
    (List.take_sublist _ _).trans (List.drop_sublist _ _)
  refine ⟨rfl, hperm, hsort, List.Pairwise.sublist hsub hsort,
    List.length_take_le _ _, ?_⟩
  intro hoff
  have hlen : (sortByCreatedDesc
      (store.filter (applyFilters status_ q))).length ≤ offset := by
    unfold sortByCreatedDesc
    rw [hperm.length_eq]
    exact hoff
  show (((sortByCreatedDesc
    (store.filter (applyFilters status_ q))).drop offset).take limit) = []
  rw [List.drop_eq_nil_of_le hlen]
  simp

/-- C5 witness at a concrete input: two stored tasks, limit 1, offset 1
(the page is the older task and has length at most 1). -/
theorem c5_pagination_witness :
    (listTasks [⟨0, [97], none, StatusEnum.created, 1, 1⟩,
      ⟨1, [98], none, StatusEnum.created, 9, 9⟩] none none 1 1).length ≤ 1 :=
  (c5_pagination [⟨0, [97], none, StatusEnum.created, 1, 1⟩,
    ⟨1, [98], none, StatusEnum.created, 9, 9⟩] none none 1 1
    (by decide) (by decide)).2.2.2.2.1

/-- C6: a page listed with a status filter only contains store rows
with exactly that status; status and q clauses compose conjunctively in
apply_filters; and with neither filter present the WHERE stage keeps the
store as-is. -/
theorem c6_filter_composition (store : List Task) (s : StatusEnum)
    (q : Option (List Nat)) (qs : List Nat) (limit offset : Nat)
    (t : Task) :
    (t ∈ listTasks store (some s) q limit offset →
      t ∈ store ∧ t.status = s) ∧
    (applyFilters (some s) (some qs) t =
      (statusClause s t && (if qs = [] then true else qClause qs t))) ∧
    (store.filter (applyFilters none none) = store) := by
  refine ⟨?_, rfl, ?_⟩
  · intro ht
    have hsub : List.Sublist (listTasks store (some s) q limit offset)
        (sortByCreatedDesc (store.filter (applyFilters (some s) q))) :=
      (List.take_sublist _ _).trans (List.drop_sublist _ _)
    have h2 : t ∈ sortByCreatedDesc
        (store.filter (applyFilters (some s) q)) := hsub.subset ht
    have h3 : t ∈ store.filter (applyFilters (some s) q) :=
      (List.perm_insertionSort taskOrder _).mem_iff.mp h2
    rw [List.mem_filter] at h3
    obtain ⟨hmem, hf⟩ := h3
    simp [applyFilters, statusClause] at hf
    exact ⟨hmem, hf.1⟩
  · rw [List.filter_eq_self]
    intro a _
    rfl

/-- C6 witness at a concrete input: the only stored task is completed
and is listed under the completed filter, hence is a store row whose
status is exactly completed. -/
theorem c6_filter_composition_witness :
    (⟨0, [97], none, StatusEnum.completed, 0, 0⟩ : Task) ∈
      [(⟨0, [97], none, StatusEnum.completed, 0, 0⟩ : Task)] ∧
    (⟨0, [97], none, StatusEnum.completed, 0, 0⟩ : Task).status =
      StatusEnum.completed :=
  (c6_filter_composition [⟨0, [97], none, StatusEnum.completed, 0, 0⟩]
    StatusEnum.completed none [] 20 0
    ⟨0, [97], none, StatusEnum.completed, 0, 0⟩).1 (by decide)

/-- C7: get, update and delete fail exactly when no row carries the
requested id; failing leaves the store untouched; and notFound is the
only error any of them can return. -/
theorem c7_notfound_semantics (store : List Task) (id : Nat)
    (p : TaskUpdate) (now : Nat) :
    (getTask store id = Except.error ApiError.notFound ↔
      findTask store id = none) ∧
    ((updateTask store id p now).1 = Except.error ApiError.notFound ↔
      findTask store id = none) ∧
    ((deleteTask store id).1 = Except.error ApiError.notFound ↔
      findTask store id = none) ∧
    (findTask store id = none ↔ ∀ t ∈ store, t.id ≠ id) ∧
    (findTask store id = none →
      (updateTask store id p now).2 = store ∧
      (deleteTask store id).2 = store) ∧
    (∀ e, getTask store id = Except.error e → e = ApiError.notFound) ∧
    (∀ e, (updateTask store id p now).1 = Except.error e →
      e = ApiError.notFound) ∧
    (∀ e, (deleteTask store id).1 = Except.error e →
      e = ApiError.notFound) := by
  refine ⟨?_, ?_, ?_, findTask_eq_none_iff store id, ?_,
    fun e _ => by cases e; rfl, fun e _ => by cases e; rfl,
    fun e _ => by cases e; rfl⟩
  · cases hf : findTask store id with
    | none => simp [getTask, hf]
    | some task => simp [getTask, hf]
  · cases hf : findTask store id with
    | none => simp [updateTask, hf]
    | some task =>
      simp only [iff_false, hf, reduceCtorEq]
      intro habs
      unfold updateTask at habs
      rw [hf] at habs
      by_cases hfl : (applyUpdate p task).2 = true
      · simp [hfl] at habs
      · simp [hfl] at habs
  · cases hf : findTask store id with
    | none => simp [deleteTask, hf]
    | some task => simp [deleteTask, hf]
  · intro hf
    constructor
    · simp [updateTask, hf]
    · simp [deleteTask, hf]

/-- C7 witness at a concrete input: the empty store, where get fails
with notFound. -/
theorem c7_notfound_semantics_witness :
    getTask [] 0 = Except.error ApiError.notFound :=
  (c7_notfound_semantics [] 0 ⟨none, none, none⟩ 0).1.mpr rfl

/-- C8: deleting an existing id succeeds, removes exactly the rows
carrying that id and no others, and a subsequent get of that id fails
with notFound. -/
theorem c8_delete_removes (store : List Task) (id : Nat) (task : Task)
    (hfound : findTask store id = some task) :
    (deleteTask store id).1 = Except.ok () ∧
    getTask (deleteTask store id).2 id = Except.error ApiError.notFound ∧
    (∀ t, t ∈ (deleteTask store id).2 ↔ t ∈ store ∧ t.id ≠ id) := by
  have hstore : (deleteTask store id).2 =
      store.filter (fun t => decide (t.id ≠ id)) := by
    simp [deleteTask, hfound]
  have h1 : (deleteTask store id).1 = Except.ok () := by
    simp [deleteTask, hfound]
  refine ⟨h1, ?_, ?_⟩
  · rw [hstore]
    have hnone : findTask (store.filter (fun t => decide (t.id ≠ id))) id =
        none := by
      rw [findTask_eq_none_iff]
      intro t ht
      rw [List.mem_filter] at ht
      simpa using ht.2
    unfold getTask
    rw [hnone]
  · intro t
    rw [hstore, List.mem_filter]
    simp

/-- C8 witness at a concrete input: deleting the only stored task makes
its id unreachable by get. -/
theorem c8_delete_removes_witness :
    getTask (deleteTask [⟨0, [97], none, StatusEnum.created, 0, 0⟩] 0).2 0 =
      Except.error ApiError.notFound :=
  (c8_delete_removes [⟨0, [97], none, StatusEnum.created, 0, 0⟩] 0
    ⟨0, [97], none, StatusEnum.created, 0, 0⟩ rfl).2.1

/-- C9: under a monotonic clock (the second creation sample is at least
the first, and the update-time sample is at least every stored
updated_at), every row of the store after a create and after an update
satisfies created_at ≤ updated_at. -/
theorem c9_timestamps_invariant (store : List Task) (p : TaskCreate)
    (newId t1 t2 : Nat) (id : Nat) (up : TaskUpdate) (now : Nat)
    (hmono : t1 ≤ t2)
    (hwf : ∀ t ∈ store, TaskWF t)
    (hclock : ∀ t ∈ store, t.updated_at ≤ now) :
    (∀ t ∈ (createTask store p newId t1 t2).2, TaskWF t) ∧
    (∀ t ∈ (updateTask store id up now).2, TaskWF t) := by
  constructor
  · intro t ht
    rw [createTask] at ht
    simp only [List.mem_append, List.mem_singleton] at ht
    rcases ht with h | h
    · exact hwf t h
    · subst h
      exact hmono
  · cases hf : findTask store id with
    | none =>
      intro t ht
      rw [updateTask] at ht
      rw [hf] at ht
      exact hwf t ht
    | some task =>
      obtain ⟨hmem, _⟩ := findTask_some store id task hf
      obtain ⟨_, hca, _, _, _, _, _⟩ := applyUpdate_spec up task
      intro t ht
      unfold updateTask at ht
      rw [hf] at ht
      by_cases hfl : (applyUpdate up task).2 = true
      · simp only [hfl, if_true] at ht
        rw [List.mem_map] at ht
        obtain ⟨u, hu, hut⟩ := ht
        by_cases hcase : u.id = id
        · rw [if_pos hcase] at hut
          subst hut
          show (applyUpdate up task).1.created_at ≤ now
          rw [hca]
          exact Nat.le_trans (hwf task hmem) (hclock task hmem)
        · rw [if_neg hcase] at hut
          subst hut
          exact hwf u hu
      · simp only [hfl, if_false] at ht
        exact hwf t ht

/-- C9 witness at a concrete input: empty store, creation samples 3 and
4, update against the empty store at time 5. -/
theorem c9_timestamps_invariant_witness :
    TaskWF ⟨0, [97], none, StatusEnum.created, 3, 4⟩ :=
  (c9_timestamps_invariant [] ⟨[97], none, none⟩ 0 3 4 0
    ⟨none, none, none⟩ 5 (by decide)
    (by intro t ht; cases ht) (by intro t ht; cases ht)).1
    ⟨0, [97], none, StatusEnum.created, 3, 4⟩ (by decide)

/-- C10: when the update payload omits the description, the returned
row keeps the stored description; and no update can ever set a
description back to null, since a returned null description means the
stored one was already null. -/
theorem c10_description_frame (store : List Task) (id : Nat)
    (p : TaskUpdate) (now : Nat) (task : Task)
    (hfound : findTask store id = some task) :
    (p.description = none →
      ∀ t2, (updateTask store id p now).1 = Except.ok t2 →
        t2.description = task.description) ∧
    (∀ t2, (updateTask store id p now).1 = Except.ok t2 →
      t2.description = none → task.description = none) := by
  obtain ⟨_, _, _, _, hdesc, _, _⟩ := applyUpdate_spec p task
  have hres : ∀ t2, (updateTask store id p now).1 = Except.ok t2 →
      t2.description = (applyUpdate p task).1.description := by
    intro t2 ht2
    unfold updateTask at ht2
    rw [hfound] at ht2
    by_cases hfl : (applyUpdate p task).2 = true
    · simp only [hfl, if_true] at ht2
      rw [Except.ok.injEq] at ht2
      rw [← ht2]
    · simp only [hfl, Bool.false_eq_true, if_false] at ht2
      rw [Except.ok.injEq] at ht2
      rw [← ht2]
  constructor
  · intro hnone t2 ht2
    rw [hres t2 ht2, hdesc, hnone]
  · intro t2 ht2 h0
    rw [hres t2 ht2, hdesc] at h0
    cases hpd : p.description with
    | none =>
      rw [hpd] at h0
      exact h0
    | some s =>
      rw [hpd] at h0
      cases h0


/-- C10 witness at a concrete input: an update changing only the title
of a task with a non-null description keeps that description. -/
theorem c10_description_frame_witness :
    ({ id := 0, title := [98], description := some [100],
       status := StatusEnum.created, created_at := 0,
       updated_at := 7 } : Task).description =
      (⟨0, [97], some [100], StatusEnum.created, 0, 0⟩ : Task).description :=
  (c10_description_frame [⟨0, [97], some [100], StatusEnum.created, 0, 0⟩]
    0 ⟨some [98], none, none⟩ 7
    ⟨0, [97], some [100], StatusEnum.created, 0, 0⟩ rfl).1 rfl
    ⟨0, [98], some [100], StatusEnum.created, 0, 7⟩ rfl

end TasksApi
